import Mathlib

/-!
Shallow embedding of the `smallworld` service-graph analyzer: the graph data
model (`src/smallworld/core/graph_builder.py`), the metrics engine
(`src/smallworld/core/metrics.py`) and the shortcut-search engine
(`src/smallworld/core/shortcut_optimizer.py`).

Conventions of the embedding:
* Python floats are modelled as exact rationals (`ℚ`); decimal literals of the
  source become the corresponding rationals.
* `networkx.DiGraph` is modelled as a list of named nodes (with their `zone`
  attribute, the empty string standing for an absent zone, mirroring
  `nodes[u].get("zone", "")`) plus a list of edges carrying the attribute
  record the graph builder always installs.
* `np.log` (used only inside the small-world coefficient) is modelled by an
  explicit function parameter `rlog : ℚ → ℚ`; theorems that depend on it
  assume only what the real logarithm satisfies at the relevant arguments
  (positivity on `(1, ∞)`).
* Dictionaries keyed by node name are association lists in node order.
-/

/-- Edge attribute record: the attributes `GraphBuilder._add_dependency_edge`
and `ShortcutOptimizer` install on every edge. -/
structure EdgeData where
  weight : ℚ := 1
  call_rate : ℚ := 0
  p50_latency : ℚ := 0
  p95_latency : ℚ := 0
  error_rate : ℚ := 0
  cost : ℚ := 0
  is_shortcut : Bool := false
deriving DecidableEq

/-- A directed graph with node attributes (name, zone) and edge attributes;
models `networkx.DiGraph` as built by `GraphBuilder`. -/
structure Graph where
  nodes : List (String × String)
  edges : List (String × String × EdgeData)
deriving DecidableEq

/-- Node names in iteration order (`list(graph.nodes())`). -/
def Graph.nodeNames (g : Graph) : List String :=
  g.nodes.map Prod.fst

/-- Number of nodes (`graph.number_of_nodes()`). -/
def Graph.nodeCount (g : Graph) : ℕ :=
  g.nodes.length

/-- Number of edges (`graph.number_of_edges()`). -/
def Graph.edgeCount (g : Graph) : ℕ :=
  g.edges.length

/-- `graph.nodes[u].get("zone", "")`: the zone attribute, `""` when unset. -/
def Graph.zone (g : Graph) (u : String) : String :=
  ((g.nodes.find? (fun p => p.1 == u)).map Prod.snd).getD ("")

/-- `graph.has_edge(u, v)`. -/
def Graph.hasEdge (g : Graph) (u v : String) : Bool :=
  g.edges.any (fun e => e.1 == u && e.2.1 == v)

/-- Successors of `u` (out-neighbours), deduplicated. -/
def Graph.succsOf (g : Graph) (u : String) : List String :=
  ((g.edges.filter (fun e => e.1 == u)).map (fun e => e.2.1)).dedup

/-- Predecessors of `v` (in-neighbours), deduplicated. -/
def Graph.predsOf (g : Graph) (v : String) : List String :=
  ((g.edges.filter (fun e => e.2.1 == v)).map (fun e => e.1)).dedup

/-- `graph.add_node(u)`: a no-op when the node exists, else appends it with
empty attributes (how networkx auto-creates endpoints). -/
def Graph.addNode (g : Graph) (u : String) : Graph :=
  if g.nodeNames.contains u then g
  else { g with nodes := g.nodes ++ [(u, "")] }

/-- `graph.add_edge(u, v, **attrs)`: auto-creates missing endpoints; replaces
the attribute record when the edge already exists, else appends the edge. -/
def Graph.addEdge (g : Graph) (u v : String) (d : EdgeData) : Graph :=
  let g := (g.addNode u).addNode v
  if g.hasEdge u v then
    { g with edges := g.edges.map (fun e => if e.1 == u && e.2.1 == v then (u, v, d) else e) }
  else
    { g with edges := g.edges ++ [(u, v, d)] }

/-- The reversed graph (every edge flipped); used by closeness centrality,
which measures distances *towards* a node. -/
def Graph.reverse (g : Graph) : Graph :=
  { nodes := g.nodes, edges := g.edges.map (fun e => (e.2.1, e.1, e.2.2)) }

/-- Neighbours in the undirected projection (`graph.to_undirected()`),
excluding the node itself. -/
def Graph.undirNbrs (g : Graph) (u : String) : List String :=
  ((g.succsOf u ++ g.predsOf u).dedup).filter (fun v => v != u)

/-- Adjacency in the undirected projection. -/
def Graph.undirAdj (g : Graph) (v w : String) : Bool :=
  g.hasEdge v w || g.hasEdge w v

/-- One BFS expansion step: `visited` is an association list node ↦ hop
distance, `frontier` the nodes discovered at distance `d`. -/
def bfsStep (succs : String → List String) : ℕ → List (String × ℕ) → List String → ℕ →
    List (String × ℕ)
  | 0, visited, _, _ => visited
  | fuel + 1, visited, frontier, d =>
    let next := ((frontier.flatMap succs).dedup).filter (fun v => (visited.lookup v).isNone)
    match next with
    | [] => visited
    | _ => bfsStep succs fuel (visited ++ next.map (fun v => (v, d + 1))) next (d + 1)

/-- Unweighted single-source shortest-path hop distances
(`nx.single_source_shortest_path_length`). -/
def Graph.distsFrom (g : Graph) (s : String) : List (String × ℕ) :=
  bfsStep g.succsOf g.nodes.length [(s, 0)] [s] 0

/-- `nx.shortest_path_length(graph, u, v)` (hop count); `none` models the
`NetworkXNoPath` exception. -/
def Graph.hopDist (g : Graph) (u v : String) : Option ℕ :=
  (g.distsFrom u).lookup v

/-- Hop distances in the reversed graph: distance *to* `u` from every node
that reaches it. -/
def Graph.distsTo (g : Graph) (u : String) : List (String × ℕ) :=
  g.reverse.distsFrom u

/-- Undirected-projection BFS reachability set from `s`. -/
def Graph.weakReach (g : Graph) (s : String) : List (String × ℕ) :=
  bfsStep (fun u => (g.succsOf u ++ g.predsOf u).dedup) g.nodes.length [(s, 0)] [s] 0

/-- `nx.is_weakly_connected` (on a non-empty graph). -/
def Graph.isWeaklyConnected (g : Graph) : Bool :=
  match g.nodeNames with
  | [] => false
  | s :: _ => g.nodeNames.all (fun v => ((g.weakReach s).lookup v).isSome)

/-- Number of weakly connected components
(`nx.number_weakly_connected_components`). -/
def Graph.weakComponentCount (g : Graph) : ℕ :=
  (g.nodeNames.foldl
    (fun (st : List String × ℕ) u =>
      if (st.1.contains u) then st
      else (st.1 ++ (g.weakReach u).map Prod.fst, st.2 + 1))
    ([], 0)).2

/-- Directed reachability test. -/
def Graph.reaches (g : Graph) (u v : String) : Bool :=
  ((g.distsFrom u).lookup v).isSome

/-- The strongly connected component of `u`: nodes mutually reachable
with `u`. -/
def Graph.sccOf (g : Graph) (u : String) : List String :=
  g.nodeNames.filter (fun v => g.reaches u v && g.reaches v u)

/-- Strongly connected components, scanning nodes in iteration order
(`nx.strongly_connected_components`; the order of components may differ from
networkx, which only matters for ties between equal-sized components). -/
def Graph.sccList (g : Graph) : List (List String) :=
  (g.nodeNames.foldl
    (fun (st : List (List String) × List String) u =>
      if st.2.contains u then st
      else let c := g.sccOf u; (st.1 ++ [c], st.2 ++ c))
    ([], [])).1

/-- `max(sccs, key=len)`: the first component of maximal size. -/
def largestByLen : List (List String) → List String
  | [] => []
  | c :: cs => (cs.foldl (fun best c₂ => if c₂.length > best.length then c₂ else best) c)

/-- Largest strongly connected component. -/
def Graph.largestSCC (g : Graph) : List String :=
  largestByLen g.sccList

/-- `graph.subgraph(nodes)`: induced subgraph. -/
def Graph.inducedSubgraph (g : Graph) (ns : List String) : Graph :=
  { nodes := g.nodes.filter (fun p => ns.contains p.1),
    edges := g.edges.filter (fun e => ns.contains e.1 && ns.contains e.2.1) }

/-- `nx.is_strongly_connected` (on a non-empty graph). -/
def Graph.isStronglyConnected (g : Graph) : Bool :=
  match g.nodeNames with
  | [] => false
  | s :: _ => g.nodeNames.all (fun v => g.reaches s v && g.reaches v s)

/-- Number-of-shortest-paths counts `σ_s(v)` for every node reachable from
`s`, computed layer by layer over the BFS distances. -/
def sigmaGrow (g : Graph) (dist : List (String × ℕ)) : ℕ → List (String × ℕ) →
    List (String × ℕ)
  | 0, sigma => sigma
  | d + 1, sigma =>
    let sigma₂ := sigmaGrow g dist d sigma
    let layer := (dist.filter (fun p => p.2 == d + 1)).map Prod.fst
    sigma₂ ++ layer.map (fun v =>
      (v, ((g.predsOf v).filter (fun u => dist.lookup u == some d)).foldl
            (fun acc u => acc + (sigma₂.lookup u).getD 0) 0))

/-- `σ_s` as an association list. -/
def Graph.sigmaFrom (g : Graph) (s : String) : List (String × ℕ) :=
  sigmaGrow g (g.distsFrom s) g.nodes.length [(s, 1)]

/-- Number of shortest `s → t` paths (0 when `t` is unreachable). -/
def Graph.numSP (g : Graph) (s t : String) : ℕ :=
  ((g.sigmaFrom s).lookup t).getD 0

/-- Contribution of the pair `(s, t)` to the (unnormalized) betweenness of
`v`: `σ_st(v) / σ_st`, zero unless `v` lies strictly inside some shortest
`s → t` path. -/
def betTerm (g : Graph) (v s t : String) : ℚ :=
  if s = v ∨ t = v ∨ s = t then 0
  else
    match g.hopDist s t with
    | none => 0
    | some dst =>
      match g.hopDist s v, g.hopDist v t with
      | some d₁, some d₂ =>
        if d₁ + d₂ = dst then
          ((g.numSP s v * g.numSP v t : ℕ) : ℚ) / ((g.numSP s t : ℕ) : ℚ)
        else 0
      | _, _ => 0

/-- `nx.betweenness_centrality(graph, normalized=True)` for one node: the raw
pair sum rescaled by `1/((n-1)(n-2))` for a directed graph with `n > 2`
(networkx applies no rescaling for `n ≤ 2`, where the sum is 0 anyway). -/
def Graph.betweennessCentrality (g : Graph) (v : String) : ℚ :=
  let raw := (g.nodeNames.map (fun s => (g.nodeNames.map (fun t => betTerm g v s t)).sum)).sum
  let n := g.nodes.length
  if n ≤ 2 then raw else raw / (((n - 1) * (n - 2) : ℕ) : ℚ)

/-- `nx.closeness_centrality` for one node `u` of a directed graph: distances
towards `u`, with the Wasserman–Faust reachable-fraction scaling networkx
applies by default. -/
def Graph.closenessCentrality (g : Graph) (u : String) : ℚ :=
  let sp := g.distsTo u
  let totsp : ℕ := (sp.map Prod.snd).sum
  let n := g.nodes.length
  if 0 < totsp ∧ 1 < n then
    (((sp.length - 1 : ℕ) : ℚ) / (totsp : ℚ)) * (((sp.length - 1 : ℕ) : ℚ) / ((n - 1 : ℕ) : ℚ))
  else 0

/-- `nx.clustering` on the undirected projection, for one node. -/
def Graph.clusteringCoeff (g : Graph) (u : String) : ℚ :=
  let nbrs := g.undirNbrs u
  let d := nbrs.length
  if d < 2 then 0
  else
    let links := (nbrs.map (fun v => (nbrs.filter (fun w => v ≠ w ∧ g.undirAdj v w)).length)).sum
    ((links : ℕ) : ℚ) / ((d * (d - 1) : ℕ) : ℚ)

/-- `nx.average_clustering` on the undirected projection. -/
def Graph.avgClustering (g : Graph) : ℚ :=
  if g.nodes.length = 0 then 0
  else ((g.nodeNames.map g.clusteringCoeff).sum) / (g.nodes.length : ℚ)

/-- `in_degree`. -/
def Graph.inDegree (g : Graph) (u : String) : ℕ :=
  (g.edges.filter (fun e => e.2.1 == u)).length

/-- `out_degree`. -/
def Graph.outDegree (g : Graph) (u : String) : ℕ :=
  (g.edges.filter (fun e => e.1 == u)).length

/-- Incoming load: sum of `call_rate` over edges ending at `v`
(`MetricsCalculator._calculate_incoming_load`). -/
def Graph.incomingLoad (g : Graph) (v : String) : ℚ :=
  ((g.edges.filter (fun e => e.2.1 == v)).map (fun e => e.2.2.call_rate)).sum

/-- Outgoing load: sum of `call_rate` over edges starting at `u`
(`MetricsCalculator._calculate_outgoing_load`). -/
def Graph.outgoingLoad (g : Graph) (u : String) : ℚ :=
  ((g.edges.filter (fun e => e.1 == u)).map (fun e => e.2.2.call_rate)).sum

/-- Total outgoing edge weight of `u` (the stochastic normalization of
`nx.pagerank`, which weights transitions by the `weight` attribute). -/
def Graph.outWeight (g : Graph) (u : String) : ℚ :=
  ((g.edges.filter (fun e => e.1 == u)).map (fun e => e.2.2.weight)).sum

/-- One pagerank power-iteration step. -/
def pagerankStep (g : Graph) (x : List (String × ℚ)) : List (String × ℚ) :=
  let n : ℚ := (g.nodes.length : ℚ)
  let alpha : ℚ := 17 / 20
  let xval := fun u => (x.lookup u).getD 0
  let danglesum := alpha * ((g.nodeNames.filter (fun u => g.outWeight u == 0)).map xval).sum
  g.nodeNames.map (fun v =>
    (v, alpha * ((g.edges.filter (fun e => e.2.1 == v)).map
          (fun e => xval e.1 * e.2.2.weight / g.outWeight e.1)).sum
        + danglesum / n + (1 - alpha) / n))

/-- Power iteration with convergence test `Σ|x' - x| < n · 10⁻⁶`; `none`
models `PowerIterationFailedConvergence` after `max_iter` rounds. -/
def pagerankIter (g : Graph) : ℕ → List (String × ℚ) → Option (List (String × ℚ))
  | 0, _ => none
  | fuel + 1, x =>
    let x₂ := pagerankStep g x
    let err := (g.nodeNames.map (fun v => |(x₂.lookup v).getD 0 - (x.lookup v).getD 0|)).sum
    if err < (g.nodes.length : ℚ) * (1 / 1000000) then some x₂
    else pagerankIter g fuel x₂

/-- `nx.pagerank(graph, alpha=0.85)`, with the metrics engine's fallback to
the uniform distribution when the iteration fails to converge (the
`except` branch of `_calculate_node_metrics`). -/
def Graph.pagerankOf (g : Graph) : List (String × ℚ) :=
  let n : ℚ := (g.nodes.length : ℚ)
  match pagerankIter g 100 (g.nodeNames.map (fun v => (v, 1 / n))) with
  | some x => x
  | none => g.nodeNames.map (fun v => (v, 1 / n))

/-- One pass of edge relaxation for weighted shortest paths. -/
def relaxOnce (g : Graph) (dist : List (String × ℚ)) : List (String × ℚ) :=
  g.edges.foldl
    (fun dist e =>
      match dist.lookup e.1 with
      | none => dist
      | some du =>
        let nd := du + e.2.2.weight
        match dist.lookup e.2.1 with
        | none => dist ++ [(e.2.1, nd)]
        | some dv => if nd < dv then dist.map (fun p => if p.1 == e.2.1 then (p.1, nd) else p)
                     else dist)
    dist

/-- Iterated relaxation. -/
def relaxMany (g : Graph) : ℕ → List (String × ℚ) → List (String × ℚ)
  | 0, dist => dist
  | fuel + 1, dist => relaxMany g fuel (relaxOnce g dist)

/-- `nx.single_source_dijkstra_path_length(graph, s, weight="weight")`:
weighted distances from `s`, computed by exhaustive relaxation (which agrees
with Dijkstra on the non-negative weights the graph builder guarantees). -/
def Graph.weightedDistsFrom (g : Graph) (s : String) : List (String × ℚ) :=
  relaxMany g g.nodes.length [(s, 0)]

/-- `MetricsCalculator._calculate_weighted_average_path_length`. -/
def Graph.weightedAveragePathLength (g : Graph) : ℚ :=
  let contrib := g.nodeNames.map (fun s =>
    let ds := (g.weightedDistsFrom s).filter (fun p => p.1 != s)
    ((ds.map Prod.snd).sum, ds.length))
  let total := (contrib.map Prod.fst).sum
  let count := (contrib.map Prod.snd).sum
  if 0 < count then total / (count : ℚ) else 0

/-- Mean hop distance over all reachable ordered pairs with distinct
endpoints (the fallback branch of `_calculate_average_path_length`). -/
def Graph.allPairsAvg (g : Graph) : ℚ :=
  let contrib := g.nodeNames.map (fun s =>
    let ds := (g.distsFrom s).filter (fun p => p.1 != s)
    ((ds.map Prod.snd).sum, ds.length))
  let total : ℕ := (contrib.map Prod.fst).sum
  let count : ℕ := (contrib.map Prod.snd).sum
  if 0 < count then (total : ℚ) / (count : ℚ) else 0

/-- `nx.average_shortest_path_length` on a strongly connected graph:
the mean hop distance over all ordered pairs of distinct nodes. -/
def Graph.avgSPLStrong (g : Graph) : ℚ :=
  let n := g.nodes.length
  let total : ℕ := (g.nodeNames.map (fun s =>
    (((g.distsFrom s).filter (fun p => p.1 != s)).map Prod.snd).sum)).sum
  if 1 < n then (total : ℚ) / ((n * (n - 1) : ℕ) : ℚ) else 0

/-- `MetricsCalculator._calculate_average_path_length`: on a weakly connected
graph whose largest SCC has more than one node, the mean distance inside that
SCC; otherwise the mean over all reachable pairs of the whole graph; 0 for
the empty graph (where `nx.is_weakly_connected` raises and the `except`
returns 0). -/
def Graph.averagePathLength (g : Graph) : ℚ :=
  if g.nodes.length = 0 then 0
  else if g.isWeaklyConnected ∧ 1 < g.largestSCC.length then
    (g.inducedSubgraph g.largestSCC).avgSPLStrong
  else g.allPairsAvg

/-- Eccentricity-style maximum over all hop distances. -/
def Graph.maxHopDist (g : Graph) : ℕ :=
  (g.nodeNames.map (fun s => ((g.distsFrom s).map Prod.snd).foldl max 0)).foldl max 0

/-- `MetricsCalculator._calculate_diameter`. -/
def Graph.diameterOf (g : Graph) : ℕ :=
  if g.nodes.length = 0 then 0
  else if g.isStronglyConnected then g.maxHopDist
  else if 1 < g.largestSCC.length then (g.inducedSubgraph g.largestSCC).maxHopDist
  else 0

/-- Per-node metrics record (`metrics.NodeMetrics`). -/
structure NodeMetrics where
  name : String
  in_degree : ℕ := 0
  out_degree : ℕ := 0
  total_degree : ℕ := 0
  betweenness_centrality : ℚ := 0
  closeness_centrality : ℚ := 0
  clustering_coefficient : ℚ := 0
  pagerank : ℚ := 0
  incoming_load : ℚ := 0
  outgoing_load : ℚ := 0
  is_hub : Bool := false
  is_bottleneck : Bool := false
  vulnerability_score : ℚ := 0
deriving DecidableEq

/-- Global metrics record (`metrics.GraphMetrics`). -/
structure GraphMetrics where
  node_count : ℕ := 0
  edge_count : ℕ := 0
  density : ℚ := 0
  average_path_length : ℚ := 0
  weighted_average_path_length : ℚ := 0
  diameter : ℕ := 0
  average_clustering : ℚ := 0
  is_connected : Bool := false
  strongly_connected_components : ℕ := 0
  weakly_connected_components : ℕ := 0
  max_betweenness : ℚ := 0
  total_load : ℚ := 0
  hub_count : ℕ := 0
  bottleneck_count : ℕ := 0
  small_world_coefficient : ℚ := 0
deriving DecidableEq

/-- `metrics.MetricsCalculator` (dataclass fields with their defaults). -/
structure MetricsCalculator where
  graph : Graph
  hub_threshold : ℚ := 7 / 10
  bottleneck_threshold : ℚ := 4 / 5

/-- Insert into a sorted list (ascending). -/
def insertSortedQ (x : ℚ) : List ℚ → List ℚ
  | [] => [x]
  | y :: ys => if x ≤ y then x :: y :: ys else y :: insertSortedQ x ys

/-- Ascending insertion sort on rationals. -/
def sortQ (l : List ℚ) : List ℚ :=
  l.foldr insertSortedQ []

/-- `np.percentile(values, q)` with the default linear interpolation
(meaningful only for non-empty `values`, the only way the engine calls it). -/
def percentile (values : List ℚ) (q : ℚ) : ℚ :=
  let s := sortQ values
  match s with
  | [] => 0
  | _ =>
    let h : ℚ := q / 100 * ((s.length : ℚ) - 1)
    let lo : ℕ := h.floor.toNat
    let hi : ℕ := h.ceil.toNat
    s.getD lo 0 + (h - (lo : ℚ)) * (s.getD hi 0 - s.getD lo 0)

/-- `MetricsCalculator._calculate_small_world_coefficient`, with `np.log`
supplied as `rlog`. -/
def calculateSmallWorldCoefficient (rlog : ℚ → ℚ) (clustering path_length : ℚ)
    (n m : ℕ) : ℚ :=
  if path_length = 0 ∨ n < 3 then 0
  else
    let p : ℚ := if 1 < n then (m : ℚ) / ((n * (n - 1) : ℕ) : ℚ) else 0
    let random_clustering := p
    let avg_degree : ℚ := if 0 < n then ((2 * m : ℕ) : ℚ) / (n : ℚ) else 0
    let random_path_length : ℚ :=
      if 1 < avg_degree then rlog (n : ℚ) / rlog avg_degree else (n : ℚ) / 2
    if random_clustering = 0 ∨ random_path_length = 0 then 0
    else
      let gammaC := if 0 < random_clustering then clustering / random_clustering else 0
      let lambdaC := path_length / random_path_length
      gammaC / lambdaC

/-- `MetricsCalculator._calculate_vulnerability`. -/
def calculateVulnerability (nm : NodeMetrics) : ℚ :=
  let betweenness_factor := nm.betweenness_centrality
  let load_factor := nm.incoming_load + nm.outgoing_load
  let normalized_load := min (load_factor / 10000) 1
  (3 / 5) * betweenness_factor + (2 / 5) * normalized_load

/-- `MetricsCalculator._calculate_node_metrics`. -/
def calculateNodeMetrics (g : Graph) : List (String × NodeMetrics) :=
  let pr := g.pagerankOf
  g.nodeNames.map (fun node =>
    (node,
      { name := node
        in_degree := g.inDegree node
        out_degree := g.outDegree node
        total_degree := g.inDegree node + g.outDegree node
        betweenness_centrality := g.betweennessCentrality node
        closeness_centrality := g.closenessCentrality node
        clustering_coefficient := g.clusteringCoeff node
        pagerank := (pr.lookup node).getD 0
        incoming_load := g.incomingLoad node
        outgoing_load := g.outgoingLoad node }))

/-- `max(values, default=0.0)`. -/
def maxQD : List ℚ → ℚ
  | [] => 0
  | x :: xs => xs.foldl max x

/-- `MetricsCalculator._calculate_graph_metrics` (its `hub_count` and
`bottleneck_count` are filled in afterwards by the identification pass,
exactly as in the source, where the dataclass leaves them 0). -/
def calculateGraphMetrics (rlog : ℚ → ℚ) (g : Graph)
    (node_metrics : List (String × NodeMetrics)) : GraphMetrics :=
  let n := g.nodes.length
  let m := g.edges.length
  if n = 0 then {}
  else
    let max_edges := n * (n - 1)
    let density : ℚ := if 0 < max_edges then (m : ℚ) / (max_edges : ℚ) else 0
    let avg_path_length := g.averagePathLength
    let weighted_avg := g.weightedAveragePathLength
    let diam := g.diameterOf
    let avg_clustering := g.avgClustering
    let weakly := g.weakComponentCount
    let strongly := g.sccList.length
    let max_betweenness := maxQD (node_metrics.map (fun p => p.2.betweenness_centrality))
    let total_load := (node_metrics.map (fun p => p.2.incoming_load)).sum
    let swc := calculateSmallWorldCoefficient rlog avg_clustering avg_path_length n m
    { node_count := n
      edge_count := m
      density := density
      average_path_length := avg_path_length
      weighted_average_path_length := weighted_avg
      diameter := diam
      average_clustering := avg_clustering
      is_connected := weakly == 1
      strongly_connected_components := strongly
      weakly_connected_components := weakly
      max_betweenness := max_betweenness
      total_load := total_load
      small_world_coefficient := swc }

/-- `MetricsCalculator._identify_hubs_and_bottlenecks`: sets the hub and
bottleneck flags and the vulnerability score on each node record and the two
counts on the graph record (the source mutates them in place; the embedding
returns the updated copies). -/
def identifyHubsAndBottlenecks (hub_threshold bottleneck_threshold : ℚ)
    (node_metrics : List (String × NodeMetrics)) (graph_metrics : GraphMetrics) :
    List (String × NodeMetrics) × GraphMetrics :=
  if node_metrics = [] then (node_metrics, graph_metrics)
  else
    let degrees := node_metrics.map (fun p => ((p.2.total_degree : ℕ) : ℚ))
    let betweenness_values := node_metrics.map (fun p => p.2.betweenness_centrality)
    let hub_degree_threshold := percentile degrees (hub_threshold * 100)
    let bottleneck_thr := percentile betweenness_values (bottleneck_threshold * 100)
    let updated := node_metrics.map (fun p =>
      let nm := p.2
      let nm := if hub_degree_threshold ≤ ((nm.total_degree : ℕ) : ℚ)
                then { nm with is_hub := true } else nm
      let nm := if bottleneck_thr ≤ nm.betweenness_centrality
                then { nm with is_bottleneck := true } else nm
      let nm := { nm with vulnerability_score := calculateVulnerability nm }
      (p.1, nm))
    let hub_count := (updated.filter (fun p => p.2.is_hub)).length
    let bottleneck_count := (updated.filter (fun p => p.2.is_bottleneck)).length
    (updated, { graph_metrics with hub_count := hub_count, bottleneck_count := bottleneck_count })

/-- `MetricsCalculator.calculate_all`. -/
def calculateAll (rlog : ℚ → ℚ) (mc : MetricsCalculator) :
    GraphMetrics × List (String × NodeMetrics) :=
  if mc.graph.nodeCount = 0 then ({}, [])
  else
    let node_metrics := calculateNodeMetrics mc.graph
    let graph_metrics := calculateGraphMetrics rlog mc.graph node_metrics
    let (node_metrics₂, graph_metrics₂) :=
      identifyHubsAndBottlenecks mc.hub_threshold mc.bottleneck_threshold
        node_metrics graph_metrics
    (graph_metrics₂, node_metrics₂)

/-- Sum of the `cost` attribute over all edges (the `total_cost` computed by
`MetricsCalculator.get_objective_value`). -/
def totalCost (g : Graph) : ℚ :=
  (g.edges.map (fun e => e.2.2.cost)).sum

/-- `MetricsCalculator.get_objective_value`:
`OBJ(G) = α·avg_path_length + β·max_betweenness + γ·total_cost`. -/
def getObjectiveValue (rlog : ℚ → ℚ) (mc : MetricsCalculator)
    (alpha beta gamma : ℚ) : ℚ :=
  let gm := (calculateAll rlog mc).1
  let total_cost := totalCost mc.graph
  alpha * gm.average_path_length + beta * gm.max_betweenness + gamma * total_cost

/-- `shortcut_optimizer.PolicyConstraints` (dataclass defaults included);
`allowed_zones` is the zone → allowed-zones dictionary as an association
list. -/
structure PolicyConstraints where
  forbidden_pairs : List (String × String) := []
  allowed_zones : List (String × List String) := []
  max_new_edges_per_service : Int := 3
  require_same_zone : Bool := false
  min_path_length_to_shortcut : Int := 2
deriving DecidableEq

/-- `shortcut_optimizer.ShortcutCandidate` (dataclass defaults included). -/
structure ShortcutCandidate where
  source : String
  target : String
  delta_objective : ℚ := 0
  delta_path_length : ℚ := 0
  delta_max_betweenness : ℚ := 0
  delta_weighted_path_length : ℚ := 0
  risk_score : ℚ := 0
  confidence : ℚ := 0
  score : ℚ := 0
  rationale : String := ""
  estimated_latency : ℚ := 1
  estimated_call_rate : ℚ := 0
deriving DecidableEq

/-- `shortcut_optimizer.ShortcutOptimizer` (dataclass fields with their
defaults; the goal enum only determines the weight fields, so the weights are
carried directly). -/
structure ShortcutOptimizer where
  graph : Graph
  alpha : ℚ := 1
  beta : ℚ := 1
  gamma : ℚ := 1 / 10
  epsilon : ℚ := 1 / 100

/-- The zone checks of `_generate_candidates`: `require_same_zone` rejects
only when both zones are non-empty and different. -/
def sameZoneOK (g : Graph) (p : PolicyConstraints) (source target : String) : Bool :=
  !(p.require_same_zone && decide (g.zone source ≠ "") && decide (g.zone target ≠ "")
    && decide (g.zone source ≠ g.zone target))

/-- The allowed-zones check of `_generate_candidates`: when the dictionary is
non-empty and the source's zone is a key, the target's zone (the empty string
when unset) must be in the associated list. -/
def allowedZonesOK (g : Graph) (p : PolicyConstraints) (source target : String) : Bool :=
  !(decide (p.allowed_zones ≠ []) && (p.allowed_zones.lookup (g.zone source)).isSome
    && decide (g.zone target ∉ (p.allowed_zones.lookup (g.zone source)).getD []))

/-- The minimum-path-length check of `_generate_candidates`: pairs with no
existing path are allowed through (`except nx.NetworkXNoPath: pass`). -/
def minPathOK (g : Graph) (p : PolicyConstraints) (source target : String) : Bool :=
  match g.hopDist source target with
  | some d => decide (p.min_path_length_to_shortcut ≤ (d : Int))
  | none => true

/-- The per-target filter chain of `_generate_candidates`: a target is
retained only when every `continue` check fails. -/
def candidateOK (g : Graph) (p : PolicyConstraints) (source target : String) : Bool :=
  !(decide (source = target))
  && !(g.hasEdge source target)
  && !(decide ((source, target) ∈ p.forbidden_pairs))
  && !(decide ((target, source) ∈ p.forbidden_pairs))
  && sameZoneOK g p source target
  && allowedZonesOK g p source target
  && minPathOK g p source target

/-- `ShortcutOptimizer._generate_candidates`. The source initializes
`edge_counts` to zero for every node and tests it against
`max_new_edges_per_service`, but never increments it; the embedding keeps
that map (constantly zero) as written. -/
def generateCandidates (g : Graph) (p : PolicyConstraints) : List (String × String) :=
  let nodes := g.nodeNames
  let edge_counts : String → Int := fun _ => 0
  nodes.flatMap (fun source =>
    if p.max_new_edges_per_service ≤ edge_counts source then []
    else (nodes.filter (fun target => candidateOK g p source target)).map
      (fun target => (source, target)))

/-- `ShortcutOptimizer._estimate_shortcut_latency`: 0.8 × mean `p50_latency`
over edges with positive `p50_latency`, or 1.0 when no such edge exists. -/
def estimateShortcutLatency (g : Graph) : ℚ :=
  let latencies := (g.edges.filter (fun e => 0 < e.2.2.p50_latency)).map
    (fun e => e.2.2.p50_latency)
  match latencies with
  | [] => 1
  | _ => latencies.sum / (latencies.length : ℚ) * (4 / 5)

/-- `ShortcutOptimizer._calculate_risk_score`. -/
def calculateRiskScore (source target : String)
    (node_metrics : List (String × NodeMetrics)) : ℚ :=
  let risk : ℚ := 0
  let risk := risk +
    (match node_metrics.lookup target with
     | some tm => tm.betweenness_centrality * (1 / 2) + (if tm.is_bottleneck then 3 / 10 else 0)
     | none => 0)
  let risk := risk +
    (match node_metrics.lookup source with
     | some sm => if sm.is_hub then 1 / 5 else 0
     | none => 0)
  let risk := risk + 1 / 10
  min risk 1

/-- `ShortcutOptimizer._calculate_confidence`. -/
def calculateConfidence (delta_obj : ℚ) (baseline modified : GraphMetrics) : ℚ :=
  if 0 ≤ delta_obj then 0
  else
    let improvement := -delta_obj
    let confidence := min (improvement * 2) (1 / 2)
    let confidence := confidence + (if baseline.is_connected then 1 / 5 else 0)
    let path_reduction := baseline.average_path_length - modified.average_path_length
    let confidence := confidence + (if 1 / 10 < path_reduction then 1 / 5 else 0)
    let betweenness_increase := modified.max_betweenness - baseline.max_betweenness
    let confidence := confidence - (if 1 / 10 < betweenness_increase then 1 / 10 else 0)
    max 0 (min 1 confidence)

/-- Fixed-point decimal rendering of a rational, modelling Python's
`f"{x:.prec f}"` (rounding of exact ties is modelled as round-half-up). -/
def formatFixed (q : ℚ) (prec : ℕ) : String :=
  let scaled : ℤ := round (q * (10 : ℚ) ^ prec)
  let sign := if scaled < 0 then "-" else ""
  let a := scaled.natAbs
  let ip := a / 10 ^ prec
  let fp := a % 10 ^ prec
  let fpStr := toString fp
  let pad := String.mk (List.replicate (prec - fpStr.length) '0')
  if prec = 0 then sign ++ toString ip else sign ++ toString ip ++ "." ++ pad ++ fpStr

/-- `ShortcutOptimizer._generate_rationale`. -/
def generateRationale (source target : String)
    (delta_path delta_betweenness delta_weighted : ℚ) : String :=
  let reasons : List String :=
    (if delta_path < -(1 / 20) then
      [s!"Reduces average path length by {formatFixed (-delta_path) 2}"] else []) ++
    (if delta_betweenness < -(1 / 100) then
      [s!"Reduces max betweenness by {formatFixed (-delta_betweenness) 3}"] else []) ++
    (if delta_weighted < -1 then
      [s!"Reduces weighted path length by {formatFixed (-delta_weighted) 1}ms"] else [])
  let reasons := match reasons with
    | [] => ["Minor optimization benefit"]
    | _ => reasons
  s!"Shortcut {source} -> {target}: " ++ String.intercalate ("; ") reasons

/-- `ShortcutOptimizer._calculate_objective`: the cost term is hard-coded to
`gamma * 0` in the source (`# Cost term (would need edge data)`). -/
def calculateObjective (opt : ShortcutOptimizer) (metrics : GraphMetrics) : ℚ :=
  opt.alpha * metrics.average_path_length +
  opt.beta * metrics.max_betweenness +
  opt.gamma * 0

/-- The attribute record `_evaluate_candidate` installs on the trial edge. -/
def shortcutEdgeData (estimated_latency : ℚ) : EdgeData :=
  { weight := estimated_latency
    call_rate := 0
    p50_latency := estimated_latency
    p95_latency := estimated_latency * 2
    error_rate := 0
    cost := 0
    is_shortcut := true }

/-- `ShortcutOptimizer._evaluate_candidate`: evaluates one generated pair on
a private copy of the graph; `none` models the `return None` taken when
`delta_obj >= 0`. -/
def evaluateCandidate (rlog : ℚ → ℚ) (opt : ShortcutOptimizer)
    (source target : String) : Option ShortcutCandidate :=
  let baseline := calculateAll rlog { graph := opt.graph }
  let baseline_obj := calculateObjective opt baseline.1
  let estimated_latency := estimateShortcutLatency opt.graph
  let modified_graph := opt.graph.addEdge source target (shortcutEdgeData estimated_latency)
  let modified := calculateAll rlog { graph := modified_graph }
  let modified_obj := calculateObjective opt modified.1
  let delta_obj := modified_obj - baseline_obj
  let delta_path := modified.1.average_path_length - baseline.1.average_path_length
  let delta_betweenness := modified.1.max_betweenness - baseline.1.max_betweenness
  let delta_weighted :=
    modified.1.weighted_average_path_length - baseline.1.weighted_average_path_length
  let risk_score := calculateRiskScore source target modified.2
  let confidence := calculateConfidence delta_obj baseline.1 modified.1
  if 0 ≤ delta_obj then none
  else
    let improvement := -delta_obj
    let score := improvement / (risk_score + opt.epsilon)
    let rationale := generateRationale source target delta_path delta_betweenness delta_weighted
    some
      { source := source
        target := target
        delta_objective := delta_obj
        delta_path_length := delta_path
        delta_max_betweenness := delta_betweenness
        delta_weighted_path_length := delta_weighted
        risk_score := risk_score
        confidence := confidence
        score := score
        rationale := rationale
        estimated_latency := estimated_latency }

/-- Stable insertion for the descending-score sort. -/
def insertByScore (c : ShortcutCandidate) : List ShortcutCandidate → List ShortcutCandidate
  | [] => [c]
  | x :: xs => if x.score < c.score then c :: x :: xs else x :: insertByScore c xs

/-- `evaluated.sort(key=lambda c: c.score, reverse=True)`: stable sort by
descending score. -/
def sortByScoreDesc (l : List ShortcutCandidate) : List ShortcutCandidate :=
  l.foldr insertByScore []

/-- `ShortcutOptimizer.find_shortcuts`. -/
def findShortcuts (rlog : ℚ → ℚ) (opt : ShortcutOptimizer) (k : ℕ)
    (policy : Option PolicyConstraints) : List ShortcutCandidate :=
  if opt.graph.nodeCount < 2 then []
  else
    let p := policy.getD {}
    let candidates := generateCandidates opt.graph p
    let evaluated := candidates.filterMap (fun pr =>
      match evaluateCandidate rlog opt pr.1 pr.2 with
      | some c => if 0 < c.score then some c else none
      | none => none)
    (sortByScoreDesc evaluated).take k

/-- `ShortcutOptimizer.simulate_shortcuts`: apply a batch of shortcuts to a
fresh copy of the graph and recompute all metrics. -/
def simulateShortcuts (rlog : ℚ → ℚ) (opt : ShortcutOptimizer)
    (shortcuts : List ShortcutCandidate) : GraphMetrics × List (String × NodeMetrics) :=
  let simulated := shortcuts.foldl
    (fun g sc => g.addEdge sc.source sc.target
      { shortcutEdgeData sc.estimated_latency with call_rate := sc.estimated_call_rate })
    opt.graph
  calculateAll rlog { graph := simulated }

/-- State-threaded `calculate_all`: the calculator's stored graph is threaded
through the computation and returned alongside the results. Every step of the
source either reads `self.graph` or builds a fresh object (`to_undirected()`,
`subgraph(...)`, new dicts and dataclass instances); no step assigns to the
stored graph, so the pipeline below passes it through unchanged. -/
def calculateAllS (rlog : ℚ → ℚ) (mc : MetricsCalculator) :
    (GraphMetrics × List (String × NodeMetrics)) × Graph :=
  if mc.graph.nodeCount = 0 then (({}, []), mc.graph)
  else
    let node_metrics := calculateNodeMetrics mc.graph
    let graph_metrics := calculateGraphMetrics rlog mc.graph node_metrics
    let (node_metrics₂, graph_metrics₂) :=
      identifyHubsAndBottlenecks mc.hub_threshold mc.bottleneck_threshold
        node_metrics graph_metrics
    ((graph_metrics₂, node_metrics₂), mc.graph)

/-- State-threaded `_evaluate_candidate`: the optimizer's stored graph is
threaded through and returned with the result. `modified_graph =
self.graph.copy()` yields an independent value and `add_edge` is applied to
that copy only, so the stored graph passes through unchanged. -/
def evaluateCandidateS (rlog : ℚ → ℚ) (opt : ShortcutOptimizer)
    (source target : String) : Option ShortcutCandidate × Graph :=
  let stored := opt.graph
  let baseline := calculateAll rlog { graph := stored }
  let baseline_obj := calculateObjective opt baseline.1
  let estimated_latency := estimateShortcutLatency stored
  let copied := stored
  let modified_graph := copied.addEdge source target (shortcutEdgeData estimated_latency)
  let modified := calculateAll rlog { graph := modified_graph }
  let modified_obj := calculateObjective opt modified.1
  let delta_obj := modified_obj - baseline_obj
  let delta_path := modified.1.average_path_length - baseline.1.average_path_length
  let delta_betweenness := modified.1.max_betweenness - baseline.1.max_betweenness
  let delta_weighted :=
    modified.1.weighted_average_path_length - baseline.1.weighted_average_path_length
  let risk_score := calculateRiskScore source target modified.2
  let confidence := calculateConfidence delta_obj baseline.1 modified.1
  if 0 ≤ delta_obj then (none, stored)
  else
    let improvement := -delta_obj
    let score := improvement / (risk_score + opt.epsilon)
    let rationale := generateRationale source target delta_path delta_betweenness delta_weighted
    (some
      { source := source
        target := target
        delta_objective := delta_obj
        delta_path_length := delta_path
        delta_max_betweenness := delta_betweenness
        delta_weighted_path_length := delta_weighted
        risk_score := risk_score
        confidence := confidence
        score := score
        rationale := rationale
        estimated_latency := estimated_latency }, stored)

/-- A two-node graph with one positive-cost edge (for the objective-function
analysis). -/
def exCostGraph : Graph :=
  { nodes := [("a", ""), ("b", "")],
    edges := [("a", "b", { weight := 1, p50_latency := 1, p95_latency := 2, cost := 5 })] }

/-- A three-node directed path `a → b → c` (triangle-free, so its average
clustering is 0). -/
def exPathGraph : Graph :=
  { nodes := [("a", ""), ("b", ""), ("c", "")],
    edges := [("a", "b", { weight := 1, p50_latency := 1, p95_latency := 2 }),
              ("b", "c", { weight := 1, p50_latency := 1, p95_latency := 2 })] }

/-- A three-node directed cycle `a → b → c → a`. -/
def exCycleGraph : Graph :=
  { nodes := [("a", ""), ("b", ""), ("c", "")],
    edges := [("a", "b", { weight := 1, p50_latency := 1, p95_latency := 2 }),
              ("b", "c", { weight := 1, p50_latency := 1, p95_latency := 2 }),
              ("c", "a", { weight := 1, p50_latency := 1, p95_latency := 2 })] }

/-- Three isolated nodes (for the per-source candidate-cap analysis). -/
def exThreeNodes : Graph :=
  { nodes := [("a", ""), ("b", ""), ("c", "")], edges := [] }

/-- A policy capping each source at one accepted candidate. -/
def exCapPolicy : PolicyConstraints :=
  { max_new_edges_per_service := 1 }

/-- Two nodes where the source's zone is an `allowed_zones` key and the
target has no zone. -/
def exZoneGraph : Graph :=
  { nodes := [("a", "z1"), ("b", "")], edges := [] }

/-- A policy whose `allowed_zones` maps zone `z1` to `[z2]` only. -/
def exZonePolicy : PolicyConstraints :=
  { allowed_zones := [("z1", ["z2"])] }

/-- Node names of the example graphs, as named constants. -/
def nA : String := "a"

/-- Node name `b`. -/
def nB : String := "b"

/-- Node name `c`. -/
def nC : String := "c"

/-- The modified graph `_evaluate_candidate` builds for the trial. -/
def trialGraph (opt : ShortcutOptimizer) (source target : String) : Graph :=
  opt.graph.addEdge source target (shortcutEdgeData (estimateShortcutLatency opt.graph))

/-- A policy that activates the same-zone requirement (all other fields
default). -/
def exC6Policy : PolicyConstraints :=
  { require_same_zone := true }

theorem lookup_mem {α β : Type} [BEq α] [LawfulBEq α] {l : List (α × β)} {a : α} {b : β}
    (h : l.lookup a = some b) : (a, b) ∈ l := by
  induction l with
  | nil => simp [List.lookup] at h
  | cons hd tl ih =>
    rw [List.lookup] at h
    split at h
    · next heq =>
      obtain rfl := Option.some.inj h
      have ha : a = hd.1 := by simpa using heq
      subst ha
      simp
    · exact List.mem_cons_of_mem _ (ih h)

theorem mem_insertByScore {c x : ShortcutCandidate} {l : List ShortcutCandidate}
    (h : x ∈ insertByScore c l) : x = c ∨ x ∈ l := by
  induction l with
  | nil => simpa [insertByScore] using h
  | cons hd tl ih =>
    rw [insertByScore] at h
    by_cases hc : hd.score < c.score
    · rw [if_pos hc, List.mem_cons] at h
      rcases h with h | h
      · exact Or.inl h
      · exact Or.inr h
    · rw [if_neg hc, List.mem_cons] at h
      rcases h with h | h
      · exact Or.inr (by simp [h])
      · rcases ih h with h' | h'
        · exact Or.inl h'
        · exact Or.inr (List.mem_cons_of_mem _ h')

theorem mem_sortByScoreDesc {x : ShortcutCandidate} {l : List ShortcutCandidate}
    (h : x ∈ sortByScoreDesc l) : x ∈ l := by
  induction l with
  | nil => simp [sortByScoreDesc] at h
  | cons hd tl ih =>
    rw [sortByScoreDesc, List.foldr_cons] at h
    rcases mem_insertByScore h with h' | h'
    · simp [h']
    · exact List.mem_cons_of_mem _ (ih h')

theorem mem_findShortcuts {rlog : ℚ → ℚ} {opt : ShortcutOptimizer} {k : ℕ}
    {policy : Option PolicyConstraints} {c : ShortcutCandidate}
    (h : c ∈ findShortcuts rlog opt k policy) :
    ∃ pr ∈ generateCandidates opt.graph (policy.getD {}),
      evaluateCandidate rlog opt pr.1 pr.2 = some c := by
  rw [findShortcuts] at h
  split at h
  · simp at h
  · have h₂ := mem_sortByScoreDesc (List.mem_of_mem_take h)
    rw [List.mem_filterMap] at h₂
    obtain ⟨pr, hmem, heq⟩ := h₂
    refine ⟨pr, hmem, ?_⟩
    cases hcase : evaluateCandidate rlog opt pr.1 pr.2 with
    | none => rw [hcase] at heq; simp at heq
    | some c₂ =>
      rw [hcase] at heq
      by_cases hsc : 0 < c₂.score
      · simp only [hsc, if_true, Option.some.injEq] at heq
        exact congrArg some heq
      · simp [hsc] at heq


theorem evaluateCandidate_some {rlog : ℚ → ℚ} {opt : ShortcutOptimizer}
    {s t : String} {c : ShortcutCandidate}
    (h : evaluateCandidate rlog opt s t = some c) :
    c.source = s ∧ c.target = t ∧ c.delta_objective < 0 ∧
    c.risk_score = calculateRiskScore s t (calculateAll rlog { graph := trialGraph opt s t }).2 ∧
    c.score = -c.delta_objective / (c.risk_score + opt.epsilon) := by
  rw [evaluateCandidate] at h
  by_cases hd : 0 ≤ calculateObjective opt (calculateAll rlog { graph := opt.graph.addEdge s t (shortcutEdgeData (estimateShortcutLatency opt.graph)) }).1 - calculateObjective opt (calculateAll rlog { graph := opt.graph }).1
  · simp only [hd, if_true] at h
    cases h
  · simp only [hd, if_false] at h
    obtain rfl := Option.some.inj h
    refine ⟨rfl, rfl, not_le.mp hd, rfl, rfl⟩

theorem mem_generateCandidates {g : Graph} {p : PolicyConstraints} {pr : String × String}
    (h : pr ∈ generateCandidates g p) :
    pr.1 ∈ g.nodeNames ∧ pr.2 ∈ g.nodeNames ∧ ¬ p.max_new_edges_per_service ≤ 0 ∧
    candidateOK g p pr.1 pr.2 = true := by
  rw [generateCandidates] at h
  rw [List.mem_flatMap] at h
  obtain ⟨source, hsrc, hmem⟩ := h
  by_cases hmax : p.max_new_edges_per_service ≤ 0
  · simp only [hmax, if_true] at hmem
    simp at hmem
  · simp only [hmax, if_false] at hmem
    rw [List.mem_map] at hmem
    obtain ⟨target, htgt, heq⟩ := hmem
    rw [List.mem_filter] at htgt
    obtain ⟨htmem, hok⟩ := htgt
    obtain rfl := heq.symm
    exact ⟨hsrc, htmem, hmax, hok⟩

theorem candidateOK_true {g : Graph} {p : PolicyConstraints} {s t : String}
    (h : candidateOK g p s t = true) :
    s ≠ t ∧ g.hasEdge s t = false ∧ (s, t) ∉ p.forbidden_pairs ∧ (t, s) ∉ p.forbidden_pairs ∧
    sameZoneOK g p s t = true ∧ allowedZonesOK g p s t = true ∧ minPathOK g p s t = true := by
  rw [candidateOK] at h
  simp only [Bool.and_eq_true, Bool.not_eq_true', decide_eq_false_iff_not,
    Bool.not_eq_true] at h
  obtain ⟨⟨⟨⟨⟨⟨h1, h2⟩, h3⟩, h4⟩, h5⟩, h6⟩, h7⟩ := h
  exact ⟨h1, h2, h3, h4, h5, h6, h7⟩

theorem sameZoneOK_true {g : Graph} {p : PolicyConstraints} {s t : String}
    (h : sameZoneOK g p s t = true) (hr : p.require_same_zone = true) :
    g.zone s = "" ∨ g.zone t = "" ∨ g.zone s = g.zone t := by
  rw [sameZoneOK] at h
  simp only [hr, Bool.not_eq_true', Bool.and_eq_true, decide_eq_true_iff] at h
  by_cases hs : g.zone s = ""
  · exact Or.inl hs
  · by_cases ht : g.zone t = ""
    · exact Or.inr (Or.inl ht)
    · refine Or.inr (Or.inr ?_)
      by_contra hne
      simp [hs, ht, hne] at h

theorem generateCandidates_eq_nil {g : Graph} {p : PolicyConstraints}
    (hmax : p.max_new_edges_per_service ≤ 0) : generateCandidates g p = [] := by
  rw [generateCandidates]
  simp [hmax]

theorem betTerm_nonneg (g : Graph) (v s t : String) : 0 ≤ betTerm g v s t := by
  rw [betTerm]
  split
  · exact le_refl 0
  · split
    · exact le_refl 0
    · split
      · split
        · positivity
        · exact le_refl 0
      · exact le_refl 0

theorem betweennessCentrality_nonneg (g : Graph) (v : String) :
    0 ≤ g.betweennessCentrality v := by
  rw [Graph.betweennessCentrality]
  have hraw : 0 ≤ (g.nodeNames.map
      (fun s => (g.nodeNames.map (fun t => betTerm g v s t)).sum)).sum := by
    apply List.sum_nonneg
    intro x hx
    rw [List.mem_map] at hx
    obtain ⟨s, _, rfl⟩ := hx
    apply List.sum_nonneg
    intro y hy
    rw [List.mem_map] at hy
    obtain ⟨t, _, rfl⟩ := hy
    exact betTerm_nonneg g v s t
  split
  · exact hraw
  · positivity

theorem calculateNodeMetrics_bet_nonneg {g : Graph} {q : String × NodeMetrics}
    (h : q ∈ calculateNodeMetrics g) : 0 ≤ q.2.betweenness_centrality := by
  rw [calculateNodeMetrics, List.mem_map] at h
  obtain ⟨node, _, rfl⟩ := h
  exact betweennessCentrality_nonneg g node

theorem identify_bet_nonneg {ht bt : ℚ} {nm : List (String × NodeMetrics)}
    {gm : GraphMetrics} {q : String × NodeMetrics}
    (hnm : ∀ x ∈ nm, 0 ≤ x.2.betweenness_centrality)
    (h : q ∈ (identifyHubsAndBottlenecks ht bt nm gm).1) :
    0 ≤ q.2.betweenness_centrality := by
  rw [identifyHubsAndBottlenecks] at h
  split at h
  · exact hnm q h
  · simp only [List.mem_map] at h
    obtain ⟨x, hx, rfl⟩ := h
    have hx₂ := hnm x hx
    simp only
    split <;> split <;> simpa using hx₂

theorem calculateAll_bet_nonneg {rlog : ℚ → ℚ} {mc : MetricsCalculator}
    {q : String × NodeMetrics} (h : q ∈ (calculateAll rlog mc).2) :
    0 ≤ q.2.betweenness_centrality := by
  rw [calculateAll] at h
  split at h
  · simp at h
  · exact identify_bet_nonneg (fun x hx => calculateNodeMetrics_bet_nonneg hx) h

theorem calculateRiskScore_bounds {s t : String} {nm : List (String × NodeMetrics)}
    (hnm : ∀ x ∈ nm, 0 ≤ x.2.betweenness_centrality) :
    1 / 10 ≤ calculateRiskScore s t nm ∧ calculateRiskScore s t nm ≤ 1 := by
  rw [calculateRiskScore]
  constructor
  · apply le_min _ (by norm_num)
    have h₁ : (0:ℚ) ≤ (match nm.lookup t with
        | some tm => tm.betweenness_centrality * (1 / 2) + (if tm.is_bottleneck then 3 / 10 else 0)
        | none => 0) := by
      cases hl : nm.lookup t with
      | none => exact le_refl 0
      | some tm =>
        have := hnm (t, tm) (lookup_mem hl)
        have hm : (0:ℚ) ≤ tm.betweenness_centrality * (1 / 2) :=
          mul_nonneg this (by norm_num)
        simp only at hm ⊢
        split
        · exact add_nonneg hm (by norm_num)
        · exact add_nonneg hm (le_refl 0)
    have h₂ : (0:ℚ) ≤ (match nm.lookup s with
        | some sm => if sm.is_hub then (1:ℚ) / 5 else 0
        | none => 0) := by
      cases nm.lookup s with
      | none => exact le_refl 0
      | some sm => positivity
    linarith
  · exact min_le_right _ _

theorem swc_eq_zero_iff (rlog : ℚ → ℚ) (hrlog : ∀ x : ℚ, 1 < x → 0 < rlog x)
    (clustering pl : ℚ) (n m : ℕ) :
    calculateSmallWorldCoefficient rlog clustering pl n m = 0 ↔
      (n < 3 ∨ pl = 0 ∨ m = 0 ∨ clustering = 0) := by
  rw [calculateSmallWorldCoefficient]
  by_cases h1 : pl = 0 ∨ n < 3
  · simp only [h1, if_true]
    constructor
    · intro _; tauto
    · intro _; trivial
  · rw [if_neg h1]
    push_neg at h1
    obtain ⟨hpl, hn3⟩ := h1
    have hn1 : 1 < n := by omega
    simp only [hn1, if_true, show 0 < n by omega]
    by_cases hm : m = 0
    · subst hm
      simp only [Nat.cast_zero, zero_div, eq_self_iff_true, true_or, if_true]
      constructor
      · intro _; tauto
      · intro _; trivial
    · have hden : (0:ℚ) < ((n * (n - 1) : ℕ) : ℚ) := by
        have : 0 < n * (n - 1) := Nat.mul_pos (by omega) (by omega)
        exact_mod_cast this
      have hp : (0:ℚ) < (m : ℚ) / ((n * (n - 1) : ℕ) : ℚ) := by
        apply div_pos _ hden
        exact_mod_cast Nat.pos_of_ne_zero hm
      have hrpl : 0 < (if 1 < ((2 * m : ℕ) : ℚ) / (n : ℚ)
          then rlog (n : ℚ) / rlog (((2 * m : ℕ) : ℚ) / (n : ℚ)) else (n : ℚ) / 2) := by
        split
        · next havg =>
          apply div_pos
          · apply hrlog
            have : (3:ℚ) ≤ (n : ℚ) := by exact_mod_cast hn3
            linarith
          · exact hrlog _ havg
        · apply div_pos _ (by norm_num)
          have : (3:ℚ) ≤ (n : ℚ) := by exact_mod_cast hn3
          linarith
      rw [if_neg (by push_neg; exact ⟨ne_of_gt hp, ne_of_gt hrpl⟩)]
      rw [if_pos hp]
      simp only [div_eq_zero_iff]
      have hpne := ne_of_gt hp
      have hrne := ne_of_gt hrpl
      have hmq : (m : ℚ) ≠ 0 := Nat.cast_ne_zero.mpr hm
      have hdq : ((n * (n - 1) : ℕ) : ℚ) ≠ 0 := ne_of_gt hden
      have hnlt : ¬ n < 3 := by omega
      tauto


theorem insertByScore_length (c : ShortcutCandidate) (l : List ShortcutCandidate) :
    (insertByScore c l).length = l.length + 1 := by
  induction l with
  | nil => rfl
  | cons hd tl ih =>
    rw [insertByScore]
    split
    · simp
    · simp [ih]

theorem sortByScoreDesc_length (l : List ShortcutCandidate) :
    (sortByScoreDesc l).length = l.length := by
  induction l with
  | nil => rfl
  | cons hd tl ih =>
    rw [sortByScoreDesc, List.foldr_cons, insertByScore_length]
    rw [sortByScoreDesc] at ih
    rw [ih, List.length_cons]

theorem evaluateCandidate_isSome {rlog : ℚ → ℚ} {opt : ShortcutOptimizer} {s t : String}
    (h : calculateObjective opt (calculateAll rlog { graph := trialGraph opt s t }).1 -
      calculateObjective opt (calculateAll rlog { graph := opt.graph }).1 < 0) :
    ∃ c, evaluateCandidate rlog opt s t = some c := by
  rw [evaluateCandidate]
  by_cases hd : 0 ≤ calculateObjective opt (calculateAll rlog { graph := opt.graph.addEdge s t (shortcutEdgeData (estimateShortcutLatency opt.graph)) }).1 - calculateObjective opt (calculateAll rlog { graph := opt.graph }).1
  · exact absurd hd (not_le.mpr h)
  · simp only [hd, if_false]
    exact ⟨_, rfl⟩

theorem findShortcuts_ne_nil {rlog : ℚ → ℚ} {opt : ShortcutOptimizer} {k : ℕ}
    {policy : Option PolicyConstraints} {s t : String} {c : ShortcutCandidate}
    (hn : ¬ opt.graph.nodeCount < 2) (hk : k ≠ 0)
    (hmem : (s, t) ∈ generateCandidates opt.graph (policy.getD {}))
    (hev : evaluateCandidate rlog opt s t = some c) (hsc : 0 < c.score) :
    findShortcuts rlog opt k policy ≠ [] := by
  rw [findShortcuts, if_neg hn]
  intro hcon
  simp only at hcon
  have hlen := congrArg List.length hcon
  rw [List.length_take, sortByScoreDesc_length, List.length_nil, Nat.min_eq_zero_iff] at hlen
  rcases hlen with hlen | hlen
  · exact hk hlen
  · rw [List.length_eq_zero, List.filterMap_eq_nil_iff] at hlen
    have hnone := hlen (s, t) hmem
    rw [hev] at hnone
    simp [hsc] at hnone

theorem bet_zero_helper (g : Graph) (v : String) (hnn : g.nodeNames = [nA, nB, nC])
    (hall : ∀ s ∈ [nA, nB, nC], ∀ t ∈ [nA, nB, nC], betTerm g v s t = 0) :
    g.betweennessCentrality v = 0 := by
  rw [Graph.betweennessCentrality]
  have hraw : (g.nodeNames.map
      (fun s => (g.nodeNames.map (fun t => betTerm g v s t)).sum)).sum = 0 := by
    rw [hnn]
    apply List.sum_eq_zero
    intro x hx
    rw [List.mem_map] at hx
    obtain ⟨s, hs, rfl⟩ := hx
    apply List.sum_eq_zero
    intro y hy
    rw [List.mem_map] at hy
    obtain ⟨t, ht, rfl⟩ := hy
    exact hall s hs t ht
  simp only [hraw]
  split
  · rfl
  · exact zero_div _

theorem exPathGraph_bet_nA : exPathGraph.betweennessCentrality nA = 0 := by
  apply bet_zero_helper exPathGraph nA rfl
  intro s hs t ht
  simp only [List.mem_cons, List.not_mem_nil, or_false] at hs ht
  rcases hs with rfl | rfl | rfl <;> rcases ht with rfl | rfl | rfl <;> rfl

theorem exPathGraph_bet_nC : exPathGraph.betweennessCentrality nC = 0 := by
  apply bet_zero_helper exPathGraph nC rfl
  intro s hs t ht
  simp only [List.mem_cons, List.not_mem_nil, or_false] at hs ht
  rcases hs with rfl | rfl | rfl <;> rcases ht with rfl | rfl | rfl <;> rfl

theorem exPathGraph_bet_nB : exPathGraph.betweennessCentrality nB = 1 / 2 := by
  have z1 : betTerm exPathGraph nB nA nA = 0 := rfl
  have z2 : betTerm exPathGraph nB nA nB = 0 := rfl
  have h1 : betTerm exPathGraph nB nA nC = ((1:ℕ) : ℚ) / ((1:ℕ) : ℚ) := rfl
  have z3 : betTerm exPathGraph nB nB nA = 0 := rfl
  have z4 : betTerm exPathGraph nB nB nB = 0 := rfl
  have z5 : betTerm exPathGraph nB nB nC = 0 := rfl
  have z6 : betTerm exPathGraph nB nC nA = 0 := rfl
  have z7 : betTerm exPathGraph nB nC nB = 0 := rfl
  have z8 : betTerm exPathGraph nB nC nC = 0 := rfl
  have hnn : exPathGraph.nodeNames = [nA, nB, nC] := rfl
  have hlen : exPathGraph.nodes.length = 3 := rfl
  rw [Graph.betweennessCentrality]
  simp only [hnn, hlen, List.map_cons, List.map_nil, List.sum_cons, List.sum_nil,
    z1, z2, h1, z3, z4, z5, z6, z7, z8]
  norm_num

theorem trial_bet_nA :
    (trialGraph { graph := exPathGraph } nA nC).betweennessCentrality nA = 0 := by
  apply bet_zero_helper (trialGraph { graph := exPathGraph } nA nC) nA rfl
  intro s hs t ht
  simp only [List.mem_cons, List.not_mem_nil, or_false] at hs ht
  rcases hs with rfl | rfl | rfl <;> rcases ht with rfl | rfl | rfl <;> rfl

theorem trial_bet_nB :
    (trialGraph { graph := exPathGraph } nA nC).betweennessCentrality nB = 0 := by
  apply bet_zero_helper (trialGraph { graph := exPathGraph } nA nC) nB rfl
  intro s hs t ht
  simp only [List.mem_cons, List.not_mem_nil, or_false] at hs ht
  rcases hs with rfl | rfl | rfl <;> rcases ht with rfl | rfl | rfl <;> rfl

theorem trial_bet_nC :
    (trialGraph { graph := exPathGraph } nA nC).betweennessCentrality nC = 0 := by
  apply bet_zero_helper (trialGraph { graph := exPathGraph } nA nC) nC rfl
  intro s hs t ht
  simp only [List.mem_cons, List.not_mem_nil, or_false] at hs ht
  rcases hs with rfl | rfl | rfl <;> rcases ht with rfl | rfl | rfl <;> rfl

theorem base_apl :
    (calculateAll (fun _ => (1:ℚ)) { graph := exPathGraph }).1.average_path_length =
      ((4:ℕ) : ℚ) / ((3:ℕ) : ℚ) := rfl

theorem trial_apl :
    (calculateAll (fun _ => (1:ℚ))
        { graph := trialGraph { graph := exPathGraph } nA nC }).1.average_path_length =
      ((3:ℕ) : ℚ) / ((3:ℕ) : ℚ) := rfl

theorem base_mb :
    (calculateAll (fun _ => (1:ℚ)) { graph := exPathGraph }).1.max_betweenness = 1 / 2 := by
  have h1 : (calculateAll (fun _ => (1:ℚ)) { graph := exPathGraph }).1.max_betweenness =
      maxQD [exPathGraph.betweennessCentrality nA, exPathGraph.betweennessCentrality nB,
        exPathGraph.betweennessCentrality nC] := rfl
  rw [h1, exPathGraph_bet_nA, exPathGraph_bet_nB, exPathGraph_bet_nC]
  rw [maxQD]
  norm_num [max_def]

theorem trial_mb :
    (calculateAll (fun _ => (1:ℚ))
        { graph := trialGraph { graph := exPathGraph } nA nC }).1.max_betweenness = 0 := by
  have h1 : (calculateAll (fun _ => (1:ℚ))
      { graph := trialGraph { graph := exPathGraph } nA nC }).1.max_betweenness =
      maxQD [(trialGraph { graph := exPathGraph } nA nC).betweennessCentrality nA,
        (trialGraph { graph := exPathGraph } nA nC).betweennessCentrality nB,
        (trialGraph { graph := exPathGraph } nA nC).betweennessCentrality nC] := rfl
  rw [h1, trial_bet_nA, trial_bet_nB, trial_bet_nC]
  rw [maxQD]
  norm_num [max_def]

/-- C1 (amended): the metrics-module objective `get_objective_value` equals
α·average_path_length + β·max_betweenness + γ·Σ(edge.cost), but the objective
the engine uses to score shortcut candidates (`_calculate_objective`) carries
a hard-coded zero cost term, so it differs from the spec formula by exactly
γ·Σ(edge.cost). -/
theorem c1_engine_objective_omits_cost (rlog : ℚ → ℚ) (g : Graph) (alpha beta gamma : ℚ) :
    getObjectiveValue rlog { graph := g } alpha beta gamma =
      calculateObjective { graph := g, alpha := alpha, beta := beta, gamma := gamma }
        (calculateAll rlog { graph := g }).1 + gamma * totalCost g := by
  rw [getObjectiveValue, calculateObjective]
  ring

/-- C1 counterexample: on a graph with one cost-5 edge and γ = 1/10 > 0, the
objective the engine scores candidates with differs from
α·average_path_length + β·max_betweenness + γ·Σ(edge.cost). -/
theorem c1_counterexample :
    calculateObjective { graph := exCostGraph, alpha := 1, beta := 1, gamma := 1 / 10 }
        (calculateAll (fun _ => 1) { graph := exCostGraph }).1 ≠
      1 * (calculateAll (fun _ => 1) { graph := exCostGraph }).1.average_path_length +
        1 * (calculateAll (fun _ => 1) { graph := exCostGraph }).1.max_betweenness +
        (1 / 10) * totalCost exCostGraph := by
  have hc : totalCost exCostGraph = 5 := by simp [totalCost, exCostGraph]
  rw [calculateObjective, hc]
  intro h
  simp only at h
  linarith

/-- C2: the failing behaviour at the concrete input — with
`max_new_edges_per_service = 1` on three isolated nodes, source `a` appears
in 2 generated pairs, because `_generate_candidates` initializes and tests
`edge_counts` but never increments it. -/
theorem c2_per_source_cap_not_enforced :
    exCapPolicy.max_new_edges_per_service = 1 ∧
    ((generateCandidates exThreeNodes exCapPolicy).filter (fun q => q.1 == "a")).length = 2 := by
  constructor
  · rfl
  · decide

/-- C3: every candidate returned by `find_shortcuts` has strictly negative
`delta_objective`: a candidate whose modified-minus-baseline objective is
non-negative is discarded inside `_evaluate_candidate` and never emitted. -/
theorem c3_no_candidate_with_nonnegative_delta (rlog : ℚ → ℚ) (opt : ShortcutOptimizer)
    (k : ℕ) (policy : Option PolicyConstraints) :
    (findShortcuts rlog opt k policy).all (fun c => decide (c.delta_objective < 0)) = true := by
  rw [List.all_eq_true]
  intro c hc
  obtain ⟨pr, _, heval⟩ := mem_findShortcuts hc
  have h := evaluateCandidate_some heval
  simpa using h.2.2.1

/-- C4 (amended): the small-world coefficient is 0 exactly when n < 3, or the
average path length is 0, or there are no edges, or the average clustering is
0 (for any model of `np.log` that is positive on arguments greater than 1,
as the real logarithm is). -/
theorem c4_small_world_zero_iff (rlog : ℚ → ℚ) (hrlog : ∀ x : ℚ, 1 < x → 0 < rlog x)
    (g : Graph) :
    calculateSmallWorldCoefficient rlog g.avgClustering g.averagePathLength
        g.nodes.length g.edges.length = 0 ↔
      (g.nodes.length < 3 ∨ g.averagePathLength = 0 ∨ g.edges.length = 0 ∨
        g.avgClustering = 0) :=
  swc_eq_zero_iff rlog hrlog _ _ _ _

/-- C4 witness: the amended characterization applied at a concrete model of
`np.log` and the 3-cycle graph. -/
theorem c4_witness :
    (calculateSmallWorldCoefficient (fun _ => 1) exCycleGraph.avgClustering
        exCycleGraph.averagePathLength exCycleGraph.nodes.length exCycleGraph.edges.length = 0 ↔
      (exCycleGraph.nodes.length < 3 ∨ exCycleGraph.averagePathLength = 0 ∨
        exCycleGraph.edges.length = 0 ∨ exCycleGraph.avgClustering = 0)) :=
  c4_small_world_zero_iff (fun _ => 1) (fun _ _ => one_pos) exCycleGraph

/-- C4 counterexample: the directed path `a → b → c` has 3 nodes, 2 edges and
positive average path length, yet its small-world coefficient is 0 (its
average clustering is 0), refuting the claimed three-way characterization. -/
theorem c4_counterexample :
    calculateSmallWorldCoefficient (fun _ => 1) exPathGraph.avgClustering
        exPathGraph.averagePathLength exPathGraph.nodes.length exPathGraph.edges.length = 0 ∧
    ¬ (exPathGraph.nodes.length < 3 ∨ exPathGraph.averagePathLength = 0 ∨
        exPathGraph.edges.length = 0) := by
  have hn : exPathGraph.nodes.length = 3 := rfl
  have hm : exPathGraph.edges.length = 2 := rfl
  have hpl : exPathGraph.averagePathLength = ((4:ℕ) : ℚ) / ((3:ℕ) : ℚ) := rfl
  have hcl : exPathGraph.avgClustering = 0 := by
    have hnn : exPathGraph.nodeNames = [nA, nB, nC] := rfl
    have ha : exPathGraph.clusteringCoeff nA = 0 := rfl
    have hb : exPathGraph.clusteringCoeff nB = ((0:ℕ) : ℚ) / ((2:ℕ) : ℚ) := rfl
    have hc : exPathGraph.clusteringCoeff nC = 0 := rfl
    rw [Graph.avgClustering, hn, hnn]
    simp [List.map_cons, ha, hb, hc]
  constructor
  · rw [hn, hm, hpl, hcl, calculateSmallWorldCoefficient]
    norm_num
  · rw [hn, hm, hpl]
    norm_num

/-- C5 (amended): when `allowed_zones` is non-empty and u's zone is one of
its keys, a pair (u, v) passes the allowed-zones check only if v's zone (the
empty string when unset) is itself in the associated list; otherwise —
including when v's zone is empty or unset — the pair is rejected and never
generated. -/
theorem c5_allowed_zones_rejects_unlisted_zone (g : Graph) (p : PolicyConstraints)
    (u v : String) (l : List String) (hne : p.allowed_zones ≠ [])
    (hl : p.allowed_zones.lookup (g.zone u) = some l) (hv : g.zone v ∉ l) :
    allowedZonesOK g p u v = false ∧ (u, v) ∉ generateCandidates g p := by
  have haz : allowedZonesOK g p u v = false := by
    rw [allowedZonesOK]
    simp [hne, hl, hv]
  refine ⟨haz, ?_⟩
  intro hmem
  obtain ⟨_, _, _, hok⟩ := mem_generateCandidates hmem
  obtain ⟨_, _, _, _, _, haz', _⟩ := candidateOK_true hok
  rw [haz] at haz'
  cases haz'

/-- C5 witness: the amended rejection rule applied at the concrete zone
example. -/
theorem c5_witness :
    allowedZonesOK exZoneGraph exZonePolicy nA nB = false ∧
    (nA, nB) ∉ generateCandidates exZoneGraph exZonePolicy :=
  c5_allowed_zones_rejects_unlisted_zone exZoneGraph exZonePolicy nA nB (["z2"])
    (by decide) (by decide) (by decide)

/-- C5 counterexample: node `a` sits in zone `z1`, a key of `allowed_zones`
mapping to `["z2"]`; node `b` has no zone; every other generation check
passes for the pair `(a, b)` (no edge, nothing forbidden, same-zone off, no
existing path, positive per-source cap) — yet the pair is not generated,
refuting "retained ... also when v's zone is empty or unset". -/
theorem c5_counterexample :
    (nA, nB) ∉ generateCandidates exZoneGraph exZonePolicy ∧
    exZoneGraph.zone nB = "" ∧
    exZonePolicy.allowed_zones ≠ [] ∧
    (exZonePolicy.allowed_zones.lookup (exZoneGraph.zone nA)).isSome = true ∧
    exZoneGraph.hasEdge nA nB = false ∧
    (nA, nB) ∉ exZonePolicy.forbidden_pairs ∧
    (nB, nA) ∉ exZonePolicy.forbidden_pairs ∧
    exZonePolicy.require_same_zone = false ∧
    exZoneGraph.hopDist nA nB = none ∧
    nA ∈ exZoneGraph.nodeNames ∧ nB ∈ exZoneGraph.nodeNames ∧
    (0 : Int) < exZonePolicy.max_new_edges_per_service := by
  decide


/-- C6 counterexample: on the unzoned chain `a → b → c` with
`require_same_zone` active, `find_shortcuts` returns a non-empty list (the
pair `(a, c)` lowers the objective from 11/6 to 1), and every returned
candidate has an empty zone on both endpoints — so no returned pair has
"both zones non-empty and equal", the same-zone constraint as the spec
states it. -/
theorem c6_counterexample :
    exC6Policy.require_same_zone = true ∧
    findShortcuts (fun _ => 1) { graph := exPathGraph } 5 (some exC6Policy) ≠ [] ∧
    (findShortcuts (fun _ => 1) { graph := exPathGraph } 5 (some exC6Policy)).all
      (fun c => decide (exPathGraph.zone c.source = "" ∧ exPathGraph.zone c.target = "")) =
      true := by
  refine ⟨rfl, ?_, ?_⟩
  · have hdelta : calculateObjective ({ graph := exPathGraph } : ShortcutOptimizer)
        (calculateAll (fun _ => (1:ℚ))
          { graph := trialGraph { graph := exPathGraph } nA nC }).1 -
        calculateObjective ({ graph := exPathGraph } : ShortcutOptimizer)
          (calculateAll (fun _ => (1:ℚ)) { graph := exPathGraph }).1 < 0 := by
      rw [calculateObjective, calculateObjective, base_apl, trial_apl, base_mb, trial_mb]
      norm_num
    obtain ⟨c, hev⟩ := evaluateCandidate_isSome hdelta
    obtain ⟨-, -, hd, hrisk, hscore⟩ := evaluateCandidate_some hev
    have hbet : ∀ x ∈ (calculateAll (fun _ => (1:ℚ)) { graph := trialGraph { graph := exPathGraph } nA nC }).2, 0 ≤ x.2.betweenness_centrality :=
      fun x hx => calculateAll_bet_nonneg hx
    have hb := @calculateRiskScore_bounds nA nC _ hbet
    rw [← hrisk] at hb
    have heps : ({ graph := exPathGraph } : ShortcutOptimizer).epsilon = 1 / 100 := rfl
    rw [heps] at hscore
    have hsc : 0 < c.score := by
      rw [hscore]
      apply div_pos (by linarith) (by linarith [hb.1])
    exact findShortcuts_ne_nil (by decide) (by decide)
      (by decide : (nA, nC) ∈ generateCandidates
        ({ graph := exPathGraph } : ShortcutOptimizer).graph
        ((some exC6Policy).getD {})) hev hsc
  · rw [List.all_eq_true]
    intro c hc
    obtain ⟨pr, hgen, heval⟩ := mem_findShortcuts hc
    rw [Option.getD_some] at hgen
    obtain ⟨hsrc, htgt, -, -⟩ := mem_generateCandidates hgen
    obtain ⟨hs, ht, -, -, -⟩ := evaluateCandidate_some heval
    rw [decide_eq_true_iff, hs, ht]
    have hz : ∀ x ∈ exPathGraph.nodeNames, exPathGraph.zone x = "" := by
      intro x hx
      have hnn : exPathGraph.nodeNames = [nA, nB, nC] := rfl
      rw [hnn] at hx
      simp only [List.mem_cons, List.not_mem_nil, or_false] at hx
      rcases hx with rfl | rfl | rfl <;> rfl
    exact ⟨hz pr.1 hsrc, hz pr.2 htgt⟩

/-- C6 (amended): every candidate returned by `find_shortcuts` names a pair
that is not an existing edge and is not forbidden in either order; an active
`require_same_zone` constraint, however, is only enforced when both endpoints
carry non-empty zones — the generator rejects exactly the pairs whose two
zones are both non-empty and different, so what every returned candidate
satisfies is: equal zones, or an empty/unset zone on either endpoint. -/
theorem c6_candidates_respect_policy (rlog : ℚ → ℚ) (opt : ShortcutOptimizer)
    (k : ℕ) (p : PolicyConstraints) :
    (findShortcuts rlog opt k (some p)).all (fun c =>
      decide (opt.graph.hasEdge c.source c.target = false ∧
        (c.source, c.target) ∉ p.forbidden_pairs ∧
        (c.target, c.source) ∉ p.forbidden_pairs ∧
        (p.require_same_zone = true →
          opt.graph.zone c.source = "" ∨ opt.graph.zone c.target = "" ∨
            opt.graph.zone c.source = opt.graph.zone c.target))) = true := by
  rw [List.all_eq_true]
  intro c hc
  obtain ⟨pr, hgen, heval⟩ := mem_findShortcuts hc
  obtain ⟨hs, ht, -, -, -⟩ := evaluateCandidate_some heval
  rw [Option.getD_some] at hgen
  obtain ⟨-, -, -, hok⟩ := mem_generateCandidates hgen
  obtain ⟨-, hedge, hf1, hf2, hsz, -, -⟩ := candidateOK_true hok
  rw [decide_eq_true_iff, hs, ht]
  exact ⟨hedge, hf1, hf2, fun hr => sameZoneOK_true hsz hr⟩

/-- C7: a policy with `max_new_edges_per_service = 0` makes every source skip
its inner loop, so `find_shortcuts` returns the empty list for every graph
and every k. -/
theorem c7_zero_cap_returns_empty (rlog : ℚ → ℚ) (opt : ShortcutOptimizer) (k : ℕ)
    (p : PolicyConstraints) :
    findShortcuts rlog opt k (some { p with max_new_edges_per_service := 0 }) = [] := by
  rw [findShortcuts]
  split
  · rfl
  · have h : generateCandidates opt.graph { p with max_new_edges_per_service := 0 } = [] :=
      generateCandidates_eq_nil (by simp)
    simp [h, sortByScoreDesc]

/-- C8: `simulate_shortcuts` on the empty batch recomputes metrics on an
unmodified copy of the graph, giving exactly the `calculate_all` result of
the original graph. -/
theorem c8_simulate_empty_eq_calculate_all (rlog : ℚ → ℚ) (opt : ShortcutOptimizer) :
    simulateShortcuts rlog opt [] = calculateAll rlog { graph := opt.graph } := rfl

/-- C9: the metrics pipeline and each candidate evaluation leave the stored
graph unchanged. Mutation is modelled by threading the stored graph through
the state-passing variants, which return exactly the graph they were given
(every source step reads the graph or works on a fresh copy), and whose
results coincide with the pure functions. -/
theorem c9_metrics_do_not_mutate_graph (rlog : ℚ → ℚ) (mc : MetricsCalculator)
    (opt : ShortcutOptimizer) (s t : String) :
    (calculateAllS rlog mc).2 = mc.graph ∧
    (calculateAllS rlog mc).1 = calculateAll rlog mc ∧
    (evaluateCandidateS rlog opt s t).2 = opt.graph ∧
    (evaluateCandidateS rlog opt s t).1 = evaluateCandidate rlog opt s t := by
  refine ⟨?_, ?_, ?_, ?_⟩
  · rw [calculateAllS]
    split
    · rfl
    · rfl
  · rw [calculateAllS, calculateAll]
    split
    · rfl
    · rfl
  · rw [evaluateCandidateS]
    split
    · rfl
    · rfl
  · rw [evaluateCandidateS, evaluateCandidate]
    split
    · rfl
    · rfl

/-- C10: every candidate returned by `find_shortcuts` (with the engine's
default ε = 0.01) has a risk score within [0.1, 1] — the base-risk term gives
the lower bound and the final cap the upper bound — and therefore a score of
at most improvement / 0.11, where improvement = −delta_objective. -/
theorem c10_risk_score_bounds (rlog : ℚ → ℚ) (g : Graph) (a b cg : ℚ) (k : ℕ)
    (policy : Option PolicyConstraints) :
    (findShortcuts rlog { graph := g, alpha := a, beta := b, gamma := cg, epsilon := 1 / 100 }
        k policy).all (fun c =>
      decide (1 / 10 ≤ c.risk_score ∧ c.risk_score ≤ 1 ∧
        c.score ≤ -c.delta_objective / (11 / 100))) = true := by
  rw [List.all_eq_true]
  intro c hc
  obtain ⟨pr, hgen, heval⟩ := mem_findShortcuts hc
  obtain ⟨hs, ht, hdelta, hrisk, hscore⟩ := evaluateCandidate_some heval
  have hbet : ∀ x ∈ (calculateAll rlog { graph := trialGraph { graph := g, alpha := a, beta := b, gamma := cg, epsilon := 1 / 100 } pr.1 pr.2 }).2, 0 ≤ x.2.betweenness_centrality :=
    fun x hx => calculateAll_bet_nonneg hx
  have hbounds := @calculateRiskScore_bounds pr.1 pr.2 _ hbet
  rw [← hrisk] at hbounds
  obtain ⟨hlow, hhigh⟩ := hbounds
  rw [decide_eq_true_iff]
  refine ⟨hlow, hhigh, ?_⟩
  rw [hscore]
  have himp : 0 < -c.delta_objective := by linarith
  have hden : (11:ℚ) / 100 ≤ c.risk_score + 1 / 100 := by linarith
  rw [div_le_div_iff₀ (by linarith) (by norm_num)]
  nlinarith
